import Mathlib

/-!
Shallow embedding of `src/origin_to.py`, a Blender add-on that moves the
origin of each selected mesh object to the bottom-center or top-center of
its world-space bounding box.

Modelling conventions:
* Scalars are `ℚ` (the Python code uses floats; the claims under study are
  about the exact arithmetic of the bounding-box formula, not about
  rounding, so the numerics are modelled exactly).
* `mathutils.Vector` is `Vec3`; `obj.matrix_world` is an affine 4×4 world
  transform restricted to its three meaningful rows (`Matrix4`), applied to
  a point exactly as `matrix_world @ v.co` is: linear part plus translation
  column.
* A scene object carries its Python identity (`id`), its `obj.type`
  (`'MESH'` or anything else), its world matrix, and the vertex list of its
  evaluated (post-modifier) mesh in local coordinates.
* The mutable ambient state touched by the operators — the 3D cursor,
  the active object, and every object's stored origin — is a `Scene`
  record threaded explicitly.
* Host mutations that the add-on merely drives (`cursor.location = …`,
  `view_layer.objects.active = …`, `bpy.ops.object.origin_set`) are
  recorded in an event trace so that claims about which objects were
  touched can be stated; `origin_set(type='ORIGIN_CURSOR')` itself is the
  host primitive that snaps the active object's origin to the cursor.
* Python truthiness of the calculator's result (`if not origin_point:`)
  is embedded by `pyTruthy`: `None` is falsy, and a `mathutils.Vector` is
  always truthy because the `Vector` C type fills no `nb_bool` slot, so
  `bool(v)` falls back to `len(v)`, the component count, which is 3 for
  these vectors — in particular `Vector((0, 0, 0))` is truthy.
-/

namespace OriginTo

/-- A 3D point/vector (`mathutils.Vector` with three components). -/
structure Vec3 where
  x : ℚ
  y : ℚ
  z : ℚ
deriving DecidableEq, Repr

/-- The world transform `obj.matrix_world`: the three meaningful rows of the
4×4 affine matrix (the fourth row of a world matrix is `(0,0,0,1)`). -/
structure Matrix4 where
  m00 : ℚ
  m01 : ℚ
  m02 : ℚ
  m03 : ℚ
  m10 : ℚ
  m11 : ℚ
  m12 : ℚ
  m13 : ℚ
  m20 : ℚ
  m21 : ℚ
  m22 : ℚ
  m23 : ℚ
deriving DecidableEq, Repr

/-- `matrix_world @ v.co`: apply the affine transform to a local point
(the point is implicitly extended with homogeneous coordinate 1). -/
def matVec (m : Matrix4) (v : Vec3) : Vec3 :=
  ⟨m.m00 * v.x + m.m01 * v.y + m.m02 * v.z + m.m03,
   m.m10 * v.x + m.m11 * v.y + m.m12 * v.z + m.m13,
   m.m20 * v.x + m.m21 * v.y + m.m22 * v.z + m.m23⟩

/-- The identity world transform. -/
def idMatrix : Matrix4 := ⟨1, 0, 0, 0, 0, 1, 0, 0, 0, 0, 1, 0⟩

/-- `obj.type`: `'MESH'` or any other object type. -/
inductive ObjKind where
  | MESH
  | OTHER
deriving DecidableEq, Repr

/-- A scene object as the add-on sees it: its Python identity, its type,
its world matrix, and the local-space vertex list of its evaluated mesh
(`obj.evaluated_get(depsgraph).data.vertices`). -/
structure Obj where
  id : Nat
  type : ObjKind
  matrix_world : Matrix4
  vertices : List Vec3
deriving DecidableEq, Repr

/-- `world_verts = [obj.matrix_world @ v.co for v in mesh.vertices]`. -/
def worldVerts (obj : Obj) : List Vec3 :=
  obj.vertices.map (matVec obj.matrix_world)

/-- Python's `min(...)` over a non-empty iterable of rationals; the `[]`
case is unreachable in `calculate_origin_point` because of the
`if not world_verts: return None` guard that precedes every use. -/
def pyMin : List ℚ → ℚ
  | [] => 0
  | v :: vs => vs.foldl min v

/-- Python's `max(...)` over a non-empty iterable of rationals; the `[]`
case is unreachable, as for `pyMin`. -/
def pyMax : List ℚ → ℚ
  | [] => 0
  | v :: vs => vs.foldl max v

/-- `SetOriginBase.calculate_origin_point(obj, use_bottom)`
(src/origin_to.py lines 28–59): world-transform every vertex of the
evaluated mesh, return `None` when there are no vertices, otherwise the
point `((min_x+max_x)/2, (min_y+max_y)/2, min_z or max_z)`. -/
def calculate_origin_point (obj : Obj) (use_bottom : Bool) : Option Vec3 :=
  let world_verts := worldVerts obj
  if world_verts.isEmpty then
    none
  else
    let min_x := pyMin (world_verts.map Vec3.x)
    let max_x := pyMax (world_verts.map Vec3.x)
    let min_y := pyMin (world_verts.map Vec3.y)
    let max_y := pyMax (world_verts.map Vec3.y)
    let min_z := pyMin (world_verts.map Vec3.z)
    let max_z := pyMax (world_verts.map Vec3.z)
    let center_x := (min_x + max_x) / 2
    let center_y := (min_y + max_y) / 2
    let target_z := if use_bottom then min_z else max_z
    some ⟨center_x, center_y, target_z⟩

/-- The Python truth value tested by `if not origin_point:`.
`None` is falsy. A `mathutils.Vector` is always truthy: the C type
defines no `nb_bool` slot, so `bool(v)` falls back to `len(v)` — the
component count, 3 — which is nonzero even for `Vector((0, 0, 0))`. -/
def pyTruthy : Option Vec3 → Bool
  | none => false
  | some _ => true

/-- The ambient host state the operators touch: the 3D cursor location,
the active object (its identity, or `none`), and each object's stored
origin, keyed by object identity. -/
structure Scene where
  cursor : Vec3
  active : Option Nat
  origin : Nat → Vec3

/-- The operator context: ambient scene state plus
`context.selected_objects`, in selection order. -/
structure Context where
  scene : Scene
  selected_objects : List Obj

/-- Host mutations driven by the operator loop, recorded in order:
`calcCall i b` — `calculate_origin_point` invoked on the object with
identity `i` and flag `b`; `cursor_to p` — `context.scene.cursor.location
= p`; `activate i` — `context.view_layer.objects.active = obj`;
`relocate i p` — `bpy.ops.object.origin_set(type='ORIGIN_CURSOR')` run
while object `i` is active and the cursor sits at `p`. -/
inductive Event where
  | calcCall (i : Nat) (use_bottom : Bool)
  | cursor_to (p : Vec3)
  | activate (i : Nat)
  | relocate (i : Nat) (p : Vec3)
deriving DecidableEq, Repr

/-- A Blender operator return code; these operators only ever produce
`{'FINISHED'}`. -/
inductive OpResult where
  | FINISHED
  | CANCELLED
deriving DecidableEq, Repr

/-- The host primitive `bpy.ops.object.origin_set(type='ORIGIN_CURSOR')`:
move the active object's origin to the current cursor location (a no-op
when no object is active). -/
def origin_set_cursor (s : Scene) : Scene :=
  match s.active with
  | none => s
  | some i => { s with origin := fun j => if j = i then s.cursor else s.origin j }

/-- What one operator invocation produces: the final scene state, the
trace of host mutations it drove, and its return code. -/
structure ExecResult where
  scene : Scene
  trace : List Event
  result : OpResult

/-- One iteration of the operator loop body, shared verbatim by both
operator classes (src/origin_to.py lines 71–86 and 103–118), with the
mode flag abstracted: skip non-mesh objects; call the calculator; skip
when `not origin_point` (see `pyTruthy`); otherwise move the cursor to
the point, make the object active, and run the origin-set primitive. -/
def process_object (use_bottom : Bool) (acc : Scene × List Event) (obj : Obj) :
    Scene × List Event :=
  if obj.type ≠ ObjKind.MESH then
    acc
  else
    let acc2 := (acc.1, acc.2 ++ [Event.calcCall obj.id use_bottom])
    match calculate_origin_point obj use_bottom with
    | none => acc2
    | some p =>
      if pyTruthy (some p) = true then
        let s1 := { acc2.1 with cursor := p }
        let s2 := { s1 with active := some obj.id }
        (origin_set_cursor s2,
         acc2.2 ++ [Event.cursor_to p, Event.activate obj.id, Event.relocate obj.id p])
      else
        acc2

/-- `SetOriginBottomOperator.execute` (src/origin_to.py lines 65–91):
snapshot cursor and active object, process every selected object with
`use_bottom=True`, restore the snapshot, return `{'FINISHED'}`. -/
def SetOriginBottomOperator_execute (ctx : Context) : ExecResult :=
  let original_cursor := ctx.scene.cursor
  let original_active := ctx.scene.active
  let acc := ctx.selected_objects.foldl (process_object true) (ctx.scene, [])
  ⟨{ acc.1 with cursor := original_cursor, active := original_active },
   acc.2, OpResult.FINISHED⟩

/-- `SetOriginTopOperator.execute` (src/origin_to.py lines 97–123):
identical to the bottom operator except that the calculator is called
with `use_bottom=False`. -/
def SetOriginTopOperator_execute (ctx : Context) : ExecResult :=
  let original_cursor := ctx.scene.cursor
  let original_active := ctx.scene.active
  let acc := ctx.selected_objects.foldl (process_object false) (ctx.scene, [])
  ⟨{ acc.1 with cursor := original_cursor, active := original_active },
   acc.2, OpResult.FINISHED⟩

/-- The batch procedure as the spec describes it: one procedure
parameterized by the mode flag {BOTTOM, TOP}; the claim-side definition
for the refinement claim that the two operator classes are this single
procedure instantiated twice. -/
def execute_with_flag (use_bottom : Bool) (ctx : Context) : ExecResult :=
  let original_cursor := ctx.scene.cursor
  let original_active := ctx.scene.active
  let acc := ctx.selected_objects.foldl (process_object use_bottom) (ctx.scene, [])
  ⟨{ acc.1 with cursor := original_cursor, active := original_active },
   acc.2, OpResult.FINISHED⟩

/-! ### Concrete objects and scenes used as evaluation inputs -/

/-- A unit cube centered at the world origin: the eight corners at ±1/2 on
each axis, identity world transform. -/
def cubeObj : Obj :=
  ⟨1, ObjKind.MESH, idMatrix,
   [⟨-(1/2), -(1/2), -(1/2)⟩, ⟨1/2, -(1/2), -(1/2)⟩,
    ⟨-(1/2), 1/2, -(1/2)⟩, ⟨1/2, 1/2, -(1/2)⟩,
    ⟨-(1/2), -(1/2), 1/2⟩, ⟨1/2, -(1/2), 1/2⟩,
    ⟨-(1/2), 1/2, 1/2⟩, ⟨1/2, 1/2, 1/2⟩]⟩

/-- A unit cube whose bottom face sits exactly at z = 0 and is centered on
the z-axis, so its BOTTOM origin point is exactly `(0, 0, 0)`. -/
def flatBottomCube : Obj :=
  ⟨2, ObjKind.MESH, idMatrix,
   [⟨-(1/2), -(1/2), 0⟩, ⟨1/2, -(1/2), 0⟩,
    ⟨-(1/2), 1/2, 0⟩, ⟨1/2, 1/2, 0⟩,
    ⟨-(1/2), -(1/2), 1⟩, ⟨1/2, -(1/2), 1⟩,
    ⟨-(1/2), 1/2, 1⟩, ⟨1/2, 1/2, 1⟩]⟩

/-- A mesh object whose evaluated mesh has no vertices. -/
def emptyMeshObj : Obj := ⟨3, ObjKind.MESH, idMatrix, []⟩

/-- A non-mesh object (e.g. a camera or light) carrying some stray vertex
data to show it is never read. -/
def lampObj : Obj := ⟨4, ObjKind.OTHER, idMatrix, [⟨9, 9, 9⟩]⟩

/-- A two-vertex mesh and the same mesh with its vertex list reversed. -/
def segObjA : Obj := ⟨5, ObjKind.MESH, idMatrix, [⟨0, 0, 0⟩, ⟨1, 2, 3⟩]⟩

/-- The permuted twin of `segObjA`. -/
def segObjB : Obj := ⟨5, ObjKind.MESH, idMatrix, [⟨1, 2, 3⟩, ⟨0, 0, 0⟩]⟩

/-- An ambient scene with a recognizable cursor and origins. -/
def sceneW : Scene := ⟨⟨7, 7, 7⟩, none, fun _ => ⟨5, 5, 5⟩⟩

/-- A context selecting the centered unit cube. -/
def ctxW : Context := ⟨sceneW, [cubeObj]⟩

/-- A context selecting the cube whose BOTTOM origin point is `(0,0,0)`. -/
def ctxZero : Context := ⟨sceneW, [flatBottomCube]⟩

/-- A context selecting a vertex-less mesh together with a normal cube. -/
def ctxEmpty : Context := ⟨sceneW, [emptyMeshObj, cubeObj]⟩

/-- A context selecting a non-mesh object together with a normal cube. -/
def ctxLamp : Context := ⟨sceneW, [lampObj, cubeObj]⟩

/-! ### Extremum characterization of `pyMin` / `pyMax` -/

/-- `m` is the minimum value of the list `l`: it occurs in `l` and bounds
every element from below (the spec's per-axis extremum, stated by value
equality so that it is independent of iteration order). -/
def isListMin (m : ℚ) (l : List ℚ) : Prop := m ∈ l ∧ ∀ a ∈ l, m ≤ a

/-- `m` is the maximum value of the list `l`. -/
def isListMax (m : ℚ) (l : List ℚ) : Prop := m ∈ l ∧ ∀ a ∈ l, a ≤ m

/-- The event `e` is one of the host mutations the loop body drives on
behalf of the object `obj` when running with flag `use_bottom`. -/
def touches (use_bottom : Bool) (obj : Obj) (e : Event) : Prop :=
  obj.type = ObjKind.MESH ∧
    (e = Event.calcCall obj.id use_bottom ∨
     ∃ p, calculate_origin_point obj use_bottom = some p ∧
       (e = Event.cursor_to p ∨ e = Event.activate obj.id ∨ e = Event.relocate obj.id p))

theorem foldl_min_mem (vs : List ℚ) : ∀ v : ℚ, vs.foldl min v ∈ v :: vs := by
  induction vs with
  | nil => intro v; simp
  | cons b vs ih =>
    intro v
    simp only [List.foldl_cons]
    rcases List.mem_cons.mp (ih (min v b)) with h | h
    · rw [h]
      rcases min_choice v b with h' | h' <;> rw [h'] <;> simp
    · exact List.mem_cons_of_mem _ (List.mem_cons_of_mem _ h)

theorem foldl_min_le (vs : List ℚ) : ∀ v : ℚ, ∀ a ∈ v :: vs, vs.foldl min v ≤ a := by
  induction vs with
  | nil =>
    intro v a ha
    rcases List.mem_cons.mp ha with rfl | ha'
    · simp
    · simp at ha'
  | cons b vs ih =>
    intro v a ha
    simp only [List.foldl_cons]
    rcases List.mem_cons.mp ha with h | ha'
    · rw [h]
      exact le_trans (ih (min v b) _ (List.mem_cons_self _ _)) (min_le_left _ _)
    · rcases List.mem_cons.mp ha' with h | ha''
      · rw [h]
        exact le_trans (ih (min v b) _ (List.mem_cons_self _ _)) (min_le_right _ _)
      · exact ih (min v b) a (List.mem_cons_of_mem _ ha'')

theorem foldl_max_mem (vs : List ℚ) : ∀ v : ℚ, vs.foldl max v ∈ v :: vs := by
  induction vs with
  | nil => intro v; simp
  | cons b vs ih =>
    intro v
    simp only [List.foldl_cons]
    rcases List.mem_cons.mp (ih (max v b)) with h | h
    · rw [h]
      rcases max_choice v b with h' | h' <;> rw [h'] <;> simp
    · exact List.mem_cons_of_mem _ (List.mem_cons_of_mem _ h)

theorem foldl_max_ge (vs : List ℚ) : ∀ v : ℚ, ∀ a ∈ v :: vs, a ≤ vs.foldl max v := by
  induction vs with
  | nil =>
    intro v a ha
    rcases List.mem_cons.mp ha with rfl | ha'
    · simp
    · simp at ha'
  | cons b vs ih =>
    intro v a ha
    simp only [List.foldl_cons]
    rcases List.mem_cons.mp ha with h | ha'
    · rw [h]
      exact le_trans (le_max_left _ _) (ih (max v b) _ (List.mem_cons_self _ _))
    · rcases List.mem_cons.mp ha' with h | ha''
      · rw [h]
        exact le_trans (le_max_right _ _) (ih (max v b) _ (List.mem_cons_self _ _))
      · exact ih (max v b) a (List.mem_cons_of_mem _ ha'')

theorem pyMin_isListMin {l : List ℚ} (h : l ≠ []) : isListMin (pyMin l) l := by
  cases l with
  | nil => exact absurd rfl h
  | cons v vs => exact ⟨foldl_min_mem vs v, foldl_min_le vs v⟩

theorem pyMax_isListMax {l : List ℚ} (h : l ≠ []) : isListMax (pyMax l) l := by
  cases l with
  | nil => exact absurd rfl h
  | cons v vs => exact ⟨foldl_max_mem vs v, foldl_max_ge vs v⟩

theorem isListMin_unique {m m' : ℚ} {l : List ℚ}
    (h1 : isListMin m l) (h2 : isListMin m' l) : m = m' :=
  le_antisymm (h1.2 m' h2.1) (h2.2 m h1.1)

theorem isListMax_unique {m m' : ℚ} {l : List ℚ}
    (h1 : isListMax m l) (h2 : isListMax m' l) : m = m' :=
  le_antisymm (h2.2 m h1.1) (h1.2 m' h2.1)

theorem isListMin_perm {m : ℚ} {l l' : List ℚ} (hp : l.Perm l')
    (h : isListMin m l) : isListMin m l' :=
  ⟨hp.mem_iff.mp h.1, fun a ha => h.2 a (hp.mem_iff.mpr ha)⟩

theorem isListMax_perm {m : ℚ} {l l' : List ℚ} (hp : l.Perm l')
    (h : isListMax m l) : isListMax m l' :=
  ⟨hp.mem_iff.mp h.1, fun a ha => h.2 a (hp.mem_iff.mpr ha)⟩

theorem perm_ne_nil {l l' : List ℚ} (hp : l.Perm l') (h : l ≠ []) : l' ≠ [] := by
  intro hn
  apply h
  have hlen := hp.length_eq
  rw [hn] at hlen
  exact List.length_eq_zero.mp hlen

theorem pyMin_perm {l l' : List ℚ} (h : l ≠ []) (hp : l.Perm l') :
    pyMin l = pyMin l' :=
  isListMin_unique (isListMin_perm hp (pyMin_isListMin h))
    (pyMin_isListMin (perm_ne_nil hp h))

theorem pyMax_perm {l l' : List ℚ} (h : l ≠ []) (hp : l.Perm l') :
    pyMax l = pyMax l' :=
  isListMax_unique (isListMax_perm hp (pyMax_isListMax h))
    (pyMax_isListMax (perm_ne_nil hp h))

/-! ### Unfolding lemmas for the calculator -/

theorem worldVerts_isEmpty_false (obj : Obj) (h : obj.vertices ≠ []) :
    (worldVerts obj).isEmpty = false := by
  cases hv : obj.vertices with
  | nil => exact absurd hv h
  | cons v vs => simp [worldVerts, hv]

theorem calc_eq_none_iff (obj : Obj) (use_bottom : Bool) :
    calculate_origin_point obj use_bottom = none ↔ obj.vertices = [] := by
  constructor
  · intro hc
    by_contra hne
    rw [calculate_origin_point] at hc
    simp only [worldVerts_isEmpty_false obj hne] at hc
    simp at hc
  · intro hv
    rw [calculate_origin_point]
    simp [worldVerts, hv]

theorem calc_eq_some (obj : Obj) (use_bottom : Bool) (h : obj.vertices ≠ []) :
    calculate_origin_point obj use_bottom =
      some ⟨(pyMin ((worldVerts obj).map Vec3.x) + pyMax ((worldVerts obj).map Vec3.x)) / 2,
            (pyMin ((worldVerts obj).map Vec3.y) + pyMax ((worldVerts obj).map Vec3.y)) / 2,
            if use_bottom then pyMin ((worldVerts obj).map Vec3.z)
            else pyMax ((worldVerts obj).map Vec3.z)⟩ := by
  rw [calculate_origin_point]
  simp only [worldVerts_isEmpty_false obj h]
  simp

/-! ### Unfolding lemmas for the operator loop body -/

theorem process_object_not_mesh {use_bottom : Bool} {acc : Scene × List Event} {obj : Obj}
    (h : obj.type ≠ ObjKind.MESH) :
    process_object use_bottom acc obj = acc := by
  simp [process_object, h]

theorem process_object_none {use_bottom : Bool} {acc : Scene × List Event} {obj : Obj}
    (h1 : obj.type = ObjKind.MESH)
    (h2 : calculate_origin_point obj use_bottom = none) :
    process_object use_bottom acc obj = (acc.1, acc.2 ++ [Event.calcCall obj.id use_bottom]) := by
  simp [process_object, h1, h2]

theorem process_object_some {use_bottom : Bool} {acc : Scene × List Event} {obj : Obj} {p : Vec3}
    (h1 : obj.type = ObjKind.MESH)
    (h2 : calculate_origin_point obj use_bottom = some p) :
    process_object use_bottom acc obj =
      ({ cursor := p, active := some obj.id,
         origin := fun j => if j = obj.id then p else acc.1.origin j },
       acc.2 ++ [Event.calcCall obj.id use_bottom, Event.cursor_to p,
                 Event.activate obj.id, Event.relocate obj.id p]) := by
  simp [process_object, h1, h2, pyTruthy, origin_set_cursor]

theorem foldl_trace_mem (use_bottom : Bool) (objs : List Obj) :
    ∀ (s : Scene) (tr : List Event) (e : Event),
      (e ∈ (objs.foldl (process_object use_bottom) (s, tr)).2) ↔
        e ∈ tr ∨ ∃ obj ∈ objs, touches use_bottom obj e := by
  induction objs with
  | nil => intro s tr e; simp
  | cons o objs ih =>
    intro s tr e
    rw [List.foldl_cons]
    by_cases hm : o.type = ObjKind.MESH
    · cases hc : calculate_origin_point o use_bottom with
      | none =>
        rw [process_object_none hm hc, ih]
        simp [touches, hm, hc]
        aesop
      | some p =>
        rw [process_object_some hm hc, ih]
        simp [touches, hm, hc]
        aesop
    · rw [process_object_not_mesh hm, ih]
      simp [touches, hm]

theorem bottom_eq_flag (ctx : Context) :
    SetOriginBottomOperator_execute ctx = execute_with_flag true ctx := rfl

theorem top_eq_flag (ctx : Context) :
    SetOriginTopOperator_execute ctx = execute_with_flag false ctx := rfl

theorem execute_trace_mem (use_bottom : Bool) (ctx : Context) (e : Event) :
    e ∈ (execute_with_flag use_bottom ctx).trace ↔
      ∃ obj ∈ ctx.selected_objects, touches use_bottom obj e := by
  have h := foldl_trace_mem use_bottom ctx.selected_objects ctx.scene [] e
  simpa using h

theorem foldl_origin_eq (use_bottom : Bool) (objs : List Obj) :
    ∀ (s : Scene) (tr : List Event) (j : Nat),
      (∀ obj ∈ objs, obj.type = ObjKind.MESH →
        ∀ p, calculate_origin_point obj use_bottom = some p → obj.id ≠ j) →
      ((objs.foldl (process_object use_bottom) (s, tr)).1).origin j = s.origin j := by
  induction objs with
  | nil => intro s tr j _; rfl
  | cons o objs ih =>
    intro s tr j hno
    rw [List.foldl_cons]
    by_cases hm : o.type = ObjKind.MESH
    · cases hc : calculate_origin_point o use_bottom with
      | none =>
        rw [process_object_none hm hc]
        exact ih _ _ j (fun obj hobj => hno obj (List.mem_cons_of_mem _ hobj))
      | some p =>
        rw [process_object_some hm hc]
        have hneq : o.id ≠ j := hno o (List.mem_cons_self _ _) hm p hc
        rw [ih _ _ j (fun obj hobj => hno obj (List.mem_cons_of_mem _ hobj))]
        simp [Ne.symm hneq]
    · rw [process_object_not_mesh hm]
      exact ih _ _ j (fun obj hobj => hno obj (List.mem_cons_of_mem _ hobj))

theorem execute_origin_eq (use_bottom : Bool) (ctx : Context) (j : Nat)
    (h : ∀ obj ∈ ctx.selected_objects, obj.type = ObjKind.MESH →
      ∀ p, calculate_origin_point obj use_bottom = some p → obj.id ≠ j) :
    (execute_with_flag use_bottom ctx).scene.origin j = ctx.scene.origin j :=
  foldl_origin_eq use_bottom ctx.selected_objects ctx.scene [] j h

/-! ### Generic consequences of the loop, parameterized by the mode flag -/

theorem flag_mesh_events (use_bottom : Bool) (ctx : Context) (obj : Obj)
    (hmem : obj ∈ ctx.selected_objects)
    (hmesh : obj.type = ObjKind.MESH)
    (hid : ∀ o ∈ ctx.selected_objects, o.id = obj.id → o = obj) :
    (obj.vertices = [] →
      Event.activate obj.id ∉ (execute_with_flag use_bottom ctx).trace ∧
      ∀ p, Event.relocate obj.id p ∉ (execute_with_flag use_bottom ctx).trace) ∧
    (obj.vertices ≠ [] →
      ∃ p, calculate_origin_point obj use_bottom = some p ∧
        Event.cursor_to p ∈ (execute_with_flag use_bottom ctx).trace ∧
        Event.activate obj.id ∈ (execute_with_flag use_bottom ctx).trace ∧
        Event.relocate obj.id p ∈ (execute_with_flag use_bottom ctx).trace) := by
  constructor
  · intro hempty
    have hnone := (calc_eq_none_iff obj use_bottom).mpr hempty
    constructor
    · intro hin
      rw [execute_trace_mem] at hin
      obtain ⟨o, hmem', hm', hdisj⟩ := hin
      rcases hdisj with hcc | ⟨p, hp, hcur | hact | hrel⟩
      · simp at hcc
      · simp at hcur
      · simp at hact
        have ho : o = obj := hid o hmem' hact.symm
        rw [ho, hnone] at hp
        exact Option.noConfusion hp
      · simp at hrel
    · intro p hin
      rw [execute_trace_mem] at hin
      obtain ⟨o, hmem', hm', hdisj⟩ := hin
      rcases hdisj with hcc | ⟨q, hq, hcur | hact | hrel⟩
      · simp at hcc
      · simp at hcur
      · simp at hact
      · simp at hrel
        have ho : o = obj := hid o hmem' hrel.1.symm
        rw [ho, hnone] at hq
        exact Option.noConfusion hq
  · intro hne
    obtain ⟨p, hp⟩ : ∃ p, calculate_origin_point obj use_bottom = some p := by
      cases hcp : calculate_origin_point obj use_bottom with
      | none => exact absurd ((calc_eq_none_iff obj use_bottom).mp hcp) hne
      | some p => exact ⟨p, rfl⟩
    refine ⟨p, hp, ?_, ?_, ?_⟩ <;> rw [execute_trace_mem]
    · exact ⟨obj, hmem, hmesh, Or.inr ⟨p, hp, Or.inl rfl⟩⟩
    · exact ⟨obj, hmem, hmesh, Or.inr ⟨p, hp, Or.inr (Or.inl rfl)⟩⟩
    · exact ⟨obj, hmem, hmesh, Or.inr ⟨p, hp, Or.inr (Or.inr rfl)⟩⟩

theorem flag_non_mesh (use_bottom : Bool) (ctx : Context) (obj : Obj)
    (hnm : obj.type ≠ ObjKind.MESH)
    (hid : ∀ o ∈ ctx.selected_objects, o.id = obj.id → o = obj) :
    (∀ b, Event.calcCall obj.id b ∉ (execute_with_flag use_bottom ctx).trace) ∧
    Event.activate obj.id ∉ (execute_with_flag use_bottom ctx).trace ∧
    (∀ p, Event.relocate obj.id p ∉ (execute_with_flag use_bottom ctx).trace) ∧
    (execute_with_flag use_bottom ctx).scene.origin obj.id = ctx.scene.origin obj.id := by
  have hof : ∀ (o : Obj), o ∈ ctx.selected_objects → o.type = ObjKind.MESH →
      o.id ≠ obj.id := by
    intro o hmem' hm' heq
    exact hnm (hid o hmem' heq ▸ hm')
  refine ⟨?_, ?_, ?_, ?_⟩
  · intro b hin
    rw [execute_trace_mem] at hin
    obtain ⟨o, hmem', hm', hdisj⟩ := hin
    rcases hdisj with hcc | ⟨p, hp, hcur | hact | hrel⟩
    · simp at hcc
      exact hof o hmem' hm' hcc.1.symm
    · simp at hcur
    · simp at hact
    · simp at hrel
  · intro hin
    rw [execute_trace_mem] at hin
    obtain ⟨o, hmem', hm', hdisj⟩ := hin
    rcases hdisj with hcc | ⟨p, hp, hcur | hact | hrel⟩
    · simp at hcc
    · simp at hcur
    · simp at hact
      exact hof o hmem' hm' hact.symm
    · simp at hrel
  · intro p hin
    rw [execute_trace_mem] at hin
    obtain ⟨o, hmem', hm', hdisj⟩ := hin
    rcases hdisj with hcc | ⟨q, hq, hcur | hact | hrel⟩
    · simp at hcc
    · simp at hcur
    · simp at hact
    · simp at hrel
      exact hof o hmem' hm' hrel.1.symm
  · apply execute_origin_eq
    intro o hmem' hm' p _ heq
    exact hof o hmem' hm' heq

/-- The BOTTOM origin point of `flatBottomCube` is exactly the zero
vector. -/
theorem flatBottomCube_point :
    calculate_origin_point flatBottomCube true = some ⟨0, 0, 0⟩ := by
  norm_num [calculate_origin_point, worldVerts, flatBottomCube, matVec, idMatrix,
    pyMin, pyMax, min_def, max_def]

/-! ### The claims -/

/-- Claim C1: for every mesh object with at least one vertex,
`calculate_origin_point obj use_bottom` returns the point whose x and y
coordinates are the midpoints `(min+max)/2` of the per-axis extrema of the
object's world-space vertex positions, and whose z coordinate is the
minimum world-space z when `use_bottom = true` (BOTTOM mode) and the
maximum world-space z when `use_bottom = false` (TOP mode). The extrema
are characterized semantically (`isListMin`/`isListMax`), not by the
code's own fold. -/
theorem calculate_origin_point_is_bbox_point (obj : Obj) (use_bottom : Bool)
    (hmesh : obj.type = ObjKind.MESH) (h : obj.vertices ≠ []) :
    ∃ lox hix loy hiy loz hiz : ℚ,
      isListMin lox ((worldVerts obj).map Vec3.x) ∧
      isListMax hix ((worldVerts obj).map Vec3.x) ∧
      isListMin loy ((worldVerts obj).map Vec3.y) ∧
      isListMax hiy ((worldVerts obj).map Vec3.y) ∧
      isListMin loz ((worldVerts obj).map Vec3.z) ∧
      isListMax hiz ((worldVerts obj).map Vec3.z) ∧
      calculate_origin_point obj use_bottom =
        some ⟨(lox + hix) / 2, (loy + hiy) / 2, if use_bottom then loz else hiz⟩ := by
  have hw : ∀ f : Vec3 → ℚ, (worldVerts obj).map f ≠ [] := by
    intro f hn
    rw [List.map_eq_nil_iff, worldVerts, List.map_eq_nil_iff] at hn
    exact h hn
  exact ⟨_, _, _, _, _, _,
    pyMin_isListMin (hw Vec3.x), pyMax_isListMax (hw Vec3.x),
    pyMin_isListMin (hw Vec3.y), pyMax_isListMax (hw Vec3.y),
    pyMin_isListMin (hw Vec3.z), pyMax_isListMax (hw Vec3.z),
    calc_eq_some obj use_bottom h⟩

/-- Witness for C1: the claim applied to the concrete unit cube in BOTTOM
mode, with its hypotheses discharged by evaluation. -/
theorem calculate_origin_point_is_bbox_point_witness :
    cubeObj.type = ObjKind.MESH ∧ cubeObj.vertices ≠ [] ∧
    (∃ lox hix loy hiy loz hiz : ℚ,
      isListMin lox ((worldVerts cubeObj).map Vec3.x) ∧
      isListMax hix ((worldVerts cubeObj).map Vec3.x) ∧
      isListMin loy ((worldVerts cubeObj).map Vec3.y) ∧
      isListMax hiy ((worldVerts cubeObj).map Vec3.y) ∧
      isListMin loz ((worldVerts cubeObj).map Vec3.z) ∧
      isListMax hiz ((worldVerts cubeObj).map Vec3.z) ∧
      calculate_origin_point cubeObj true =
        some ⟨(lox + hix) / 2, (loy + hiy) / 2, if true then loz else hiz⟩) :=
  ⟨rfl, by simp [cubeObj],
   calculate_origin_point_is_bbox_point cubeObj true rfl (by simp [cubeObj])⟩

/-- Claim C2: a mesh object in the selection is skipped by the batch loop
(never made active, never relocated) exactly when the calculator returns
`None`, i.e. when its vertex list is empty; every mesh object with at
least one vertex gets the cursor moved to its computed origin point, is
made active, and has the host's relocate-origin-to-cursor mutation run on
it — under both operators. The `hid` hypothesis states that the object's
Python identity is not shared by another selected object. -/
theorem batch_skips_iff_calculator_none (ctx : Context) (obj : Obj)
    (hmem : obj ∈ ctx.selected_objects)
    (hmesh : obj.type = ObjKind.MESH)
    (hid : ∀ o ∈ ctx.selected_objects, o.id = obj.id → o = obj) :
    (obj.vertices = [] →
      Event.activate obj.id ∉ (SetOriginBottomOperator_execute ctx).trace ∧
      (∀ p, Event.relocate obj.id p ∉ (SetOriginBottomOperator_execute ctx).trace) ∧
      Event.activate obj.id ∉ (SetOriginTopOperator_execute ctx).trace ∧
      (∀ p, Event.relocate obj.id p ∉ (SetOriginTopOperator_execute ctx).trace)) ∧
    (obj.vertices ≠ [] →
      (∃ p, calculate_origin_point obj true = some p ∧
        Event.cursor_to p ∈ (SetOriginBottomOperator_execute ctx).trace ∧
        Event.activate obj.id ∈ (SetOriginBottomOperator_execute ctx).trace ∧
        Event.relocate obj.id p ∈ (SetOriginBottomOperator_execute ctx).trace) ∧
      (∃ p, calculate_origin_point obj false = some p ∧
        Event.cursor_to p ∈ (SetOriginTopOperator_execute ctx).trace ∧
        Event.activate obj.id ∈ (SetOriginTopOperator_execute ctx).trace ∧
        Event.relocate obj.id p ∈ (SetOriginTopOperator_execute ctx).trace)) := by
  have hB := flag_mesh_events true ctx obj hmem hmesh hid
  have hT := flag_mesh_events false ctx obj hmem hmesh hid
  rw [bottom_eq_flag, top_eq_flag]
  exact ⟨fun he => ⟨(hB.1 he).1, (hB.1 he).2, (hT.1 he).1, (hT.1 he).2⟩,
         fun hne => ⟨hB.2 hne, hT.2 hne⟩⟩

/-- Witness for C2: the claim applied to a selection holding just the
unit cube. -/
theorem batch_skips_iff_calculator_none_witness :
    cubeObj ∈ ctxW.selected_objects ∧ cubeObj.type = ObjKind.MESH ∧
    (∀ o ∈ ctxW.selected_objects, o.id = cubeObj.id → o = cubeObj) ∧
    ((cubeObj.vertices = [] →
      Event.activate cubeObj.id ∉ (SetOriginBottomOperator_execute ctxW).trace ∧
      (∀ p, Event.relocate cubeObj.id p ∉ (SetOriginBottomOperator_execute ctxW).trace) ∧
      Event.activate cubeObj.id ∉ (SetOriginTopOperator_execute ctxW).trace ∧
      (∀ p, Event.relocate cubeObj.id p ∉ (SetOriginTopOperator_execute ctxW).trace)) ∧
    (cubeObj.vertices ≠ [] →
      (∃ p, calculate_origin_point cubeObj true = some p ∧
        Event.cursor_to p ∈ (SetOriginBottomOperator_execute ctxW).trace ∧
        Event.activate cubeObj.id ∈ (SetOriginBottomOperator_execute ctxW).trace ∧
        Event.relocate cubeObj.id p ∈ (SetOriginBottomOperator_execute ctxW).trace) ∧
      (∃ p, calculate_origin_point cubeObj false = some p ∧
        Event.cursor_to p ∈ (SetOriginTopOperator_execute ctxW).trace ∧
        Event.activate cubeObj.id ∈ (SetOriginTopOperator_execute ctxW).trace ∧
        Event.relocate cubeObj.id p ∈ (SetOriginTopOperator_execute ctxW).trace))) :=
  ⟨by simp [ctxW], rfl, by intro o ho _; simpa [ctxW] using ho,
   batch_skips_iff_calculator_none ctxW cubeObj (by simp [ctxW]) rfl
     (by intro o ho _; simpa [ctxW] using ho)⟩

/-- Counterexample to claim C3 as stated: `flatBottomCube` is a mesh whose
world-space bounding box is centered at x = 0, y = 0 with minimum z = 0,
so its computed BOTTOM origin point is exactly the zero vector — yet the
batch procedure does NOT skip it: the relocate mutation runs on it and
its stored origin changes from `(5,5,5)` to `(0,0,0)`. The skip test
`if not origin_point:` does not treat a zero `mathutils.Vector` like
`None`, because a `Vector`'s truth value comes from its component count
(3), not from its coordinates. -/
theorem zero_origin_point_not_skipped_cex :
    calculate_origin_point flatBottomCube true = some ⟨0, 0, 0⟩ ∧
    flatBottomCube ∈ ctxZero.selected_objects ∧
    Event.relocate flatBottomCube.id ⟨0, 0, 0⟩ ∈
      (SetOriginBottomOperator_execute ctxZero).trace ∧
    (SetOriginBottomOperator_execute ctxZero).scene.origin flatBottomCube.id = ⟨0, 0, 0⟩ ∧
    ctxZero.scene.origin flatBottomCube.id ≠ ⟨0, 0, 0⟩ := by
  refine ⟨flatBottomCube_point, by simp [ctxZero], ?_, ?_, ?_⟩
  · rw [bottom_eq_flag, execute_trace_mem]
    exact ⟨flatBottomCube, by simp [ctxZero], rfl,
      Or.inr ⟨⟨0, 0, 0⟩, flatBottomCube_point, Or.inr (Or.inr rfl)⟩⟩
  · rw [bottom_eq_flag]
    unfold execute_with_flag
    simp only [ctxZero]
    rw [List.foldl_cons, process_object_some rfl flatBottomCube_point, List.foldl_nil]
    simp
  · simp [ctxZero, sceneW]

/-- Claim C3 as amended: for a mesh object in the selection whose computed
BOTTOM origin point is exactly the zero vector, the batch procedure does
NOT skip relocation — the truth test on the returned vector is true (a
`mathutils.Vector`'s truth value is its component count, so the zero
vector is not treated like `None`), the cursor is moved to `(0,0,0)`, and
the host relocate mutation is invoked on the object. -/
theorem zero_origin_point_relocated (ctx : Context) (obj : Obj)
    (hmem : obj ∈ ctx.selected_objects) (hmesh : obj.type = ObjKind.MESH)
    (hz : calculate_origin_point obj true = some ⟨0, 0, 0⟩) :
    pyTruthy (calculate_origin_point obj true) = true ∧
    Event.cursor_to ⟨0, 0, 0⟩ ∈ (SetOriginBottomOperator_execute ctx).trace ∧
    Event.relocate obj.id ⟨0, 0, 0⟩ ∈ (SetOriginBottomOperator_execute ctx).trace := by
  refine ⟨by rw [hz]; rfl, ?_, ?_⟩ <;> rw [bottom_eq_flag, execute_trace_mem]
  · exact ⟨obj, hmem, hmesh, Or.inr ⟨⟨0, 0, 0⟩, hz, Or.inl rfl⟩⟩
  · exact ⟨obj, hmem, hmesh, Or.inr ⟨⟨0, 0, 0⟩, hz, Or.inr (Or.inr rfl)⟩⟩

/-- Witness for the amended C3, at the cube whose bottom-center is the
world origin. -/
theorem zero_origin_point_relocated_witness :
    flatBottomCube ∈ ctxZero.selected_objects ∧
    flatBottomCube.type = ObjKind.MESH ∧
    calculate_origin_point flatBottomCube true = some ⟨0, 0, 0⟩ ∧
    (pyTruthy (calculate_origin_point flatBottomCube true) = true ∧
     Event.cursor_to ⟨0, 0, 0⟩ ∈ (SetOriginBottomOperator_execute ctxZero).trace ∧
     Event.relocate flatBottomCube.id ⟨0, 0, 0⟩ ∈
       (SetOriginBottomOperator_execute ctxZero).trace) :=
  ⟨by simp [ctxZero], rfl, flatBottomCube_point,
   zero_origin_point_relocated ctxZero flatBottomCube (by simp [ctxZero]) rfl
     flatBottomCube_point⟩

/-- Claim C4: after a batch invocation of either operator — whatever the
selection (empty, partially skipped, or fully processed) — the ambient
3D-cursor location and the active-object identity equal their values from
immediately before the invocation. -/
theorem ambient_state_restored (ctx : Context) :
    (SetOriginBottomOperator_execute ctx).scene.cursor = ctx.scene.cursor ∧
    (SetOriginBottomOperator_execute ctx).scene.active = ctx.scene.active ∧
    (SetOriginTopOperator_execute ctx).scene.cursor = ctx.scene.cursor ∧
    (SetOriginTopOperator_execute ctx).scene.active = ctx.scene.active :=
  ⟨rfl, rfl, rfl, rfl⟩

/-- Claim C5: a mesh object whose evaluated geometry has no vertices makes
the calculator return `None` (no error is possible — the function is
total), and the batch procedure leaves that object's stored origin
unmodified, under both operators. -/
theorem empty_mesh_none_and_origin_unchanged (ctx : Context) (obj : Obj)
    (hmem : obj ∈ ctx.selected_objects)
    (hmesh : obj.type = ObjKind.MESH)
    (hempty : obj.vertices = [])
    (hid : ∀ o ∈ ctx.selected_objects, o.id = obj.id → o = obj) :
    calculate_origin_point obj true = none ∧
    calculate_origin_point obj false = none ∧
    (SetOriginBottomOperator_execute ctx).scene.origin obj.id = ctx.scene.origin obj.id ∧
    (SetOriginTopOperator_execute ctx).scene.origin obj.id = ctx.scene.origin obj.id := by
  have hnone : ∀ b, calculate_origin_point obj b = none :=
    fun b => (calc_eq_none_iff obj b).mpr hempty
  have horig : ∀ b, (execute_with_flag b ctx).scene.origin obj.id = ctx.scene.origin obj.id := by
    intro b
    apply execute_origin_eq
    intro o hmem' _ p hp heq
    rw [hid o hmem' heq, hnone b] at hp
    exact Option.noConfusion hp
  exact ⟨hnone true, hnone false,
    by rw [bottom_eq_flag]; exact horig true,
    by rw [top_eq_flag]; exact horig false⟩

/-- Witness for C5: a selection holding a vertex-less mesh next to a
normal cube. -/
theorem empty_mesh_none_and_origin_unchanged_witness :
    emptyMeshObj ∈ ctxEmpty.selected_objects ∧
    emptyMeshObj.type = ObjKind.MESH ∧
    emptyMeshObj.vertices = [] ∧
    (∀ o ∈ ctxEmpty.selected_objects, o.id = emptyMeshObj.id → o = emptyMeshObj) ∧
    (calculate_origin_point emptyMeshObj true = none ∧
     calculate_origin_point emptyMeshObj false = none ∧
     (SetOriginBottomOperator_execute ctxEmpty).scene.origin emptyMeshObj.id =
       ctxEmpty.scene.origin emptyMeshObj.id ∧
     (SetOriginTopOperator_execute ctxEmpty).scene.origin emptyMeshObj.id =
       ctxEmpty.scene.origin emptyMeshObj.id) := by
  have hid : ∀ o ∈ ctxEmpty.selected_objects, o.id = emptyMeshObj.id → o = emptyMeshObj := by
    intro o ho h
    rcases (by simpa [ctxEmpty] using ho : o = emptyMeshObj ∨ o = cubeObj) with rfl | rfl
    · rfl
    · simp [cubeObj, emptyMeshObj] at h
  exact ⟨by simp [ctxEmpty], rfl, rfl, hid,
    empty_mesh_none_and_origin_unchanged ctxEmpty emptyMeshObj (by simp [ctxEmpty]) rfl rfl hid⟩

/-- Claim C6: an object in the selection whose type is not mesh is never
passed to the calculator and is never mutated on its behalf: no
calculator call, no active-object change, no relocate call carries its
identity, and its stored origin is unchanged — under both operators. -/
theorem non_mesh_never_touched (ctx : Context) (obj : Obj)
    (hmem : obj ∈ ctx.selected_objects)
    (hnm : obj.type ≠ ObjKind.MESH)
    (hid : ∀ o ∈ ctx.selected_objects, o.id = obj.id → o = obj) :
    (∀ b, Event.calcCall obj.id b ∉ (SetOriginBottomOperator_execute ctx).trace) ∧
    Event.activate obj.id ∉ (SetOriginBottomOperator_execute ctx).trace ∧
    (∀ p, Event.relocate obj.id p ∉ (SetOriginBottomOperator_execute ctx).trace) ∧
    (SetOriginBottomOperator_execute ctx).scene.origin obj.id = ctx.scene.origin obj.id ∧
    (∀ b, Event.calcCall obj.id b ∉ (SetOriginTopOperator_execute ctx).trace) ∧
    Event.activate obj.id ∉ (SetOriginTopOperator_execute ctx).trace ∧
    (∀ p, Event.relocate obj.id p ∉ (SetOriginTopOperator_execute ctx).trace) ∧
    (SetOriginTopOperator_execute ctx).scene.origin obj.id = ctx.scene.origin obj.id := by
  have hB := flag_non_mesh true ctx obj hnm hid
  have hT := flag_non_mesh false ctx obj hnm hid
  rw [bottom_eq_flag, top_eq_flag]
  exact ⟨hB.1, hB.2.1, hB.2.2.1, hB.2.2.2, hT.1, hT.2.1, hT.2.2.1, hT.2.2.2⟩

/-- Witness for C6: a selection holding a non-mesh object next to a
normal cube. -/
theorem non_mesh_never_touched_witness :
    lampObj ∈ ctxLamp.selected_objects ∧
    lampObj.type ≠ ObjKind.MESH ∧
    (∀ o ∈ ctxLamp.selected_objects, o.id = lampObj.id → o = lampObj) ∧
    ((∀ b, Event.calcCall lampObj.id b ∉ (SetOriginBottomOperator_execute ctxLamp).trace) ∧
     Event.activate lampObj.id ∉ (SetOriginBottomOperator_execute ctxLamp).trace ∧
     (∀ p, Event.relocate lampObj.id p ∉ (SetOriginBottomOperator_execute ctxLamp).trace) ∧
     (SetOriginBottomOperator_execute ctxLamp).scene.origin lampObj.id =
       ctxLamp.scene.origin lampObj.id ∧
     (∀ b, Event.calcCall lampObj.id b ∉ (SetOriginTopOperator_execute ctxLamp).trace) ∧
     Event.activate lampObj.id ∉ (SetOriginTopOperator_execute ctxLamp).trace ∧
     (∀ p, Event.relocate lampObj.id p ∉ (SetOriginTopOperator_execute ctxLamp).trace) ∧
     (SetOriginTopOperator_execute ctxLamp).scene.origin lampObj.id =
       ctxLamp.scene.origin lampObj.id) := by
  have hid : ∀ o ∈ ctxLamp.selected_objects, o.id = lampObj.id → o = lampObj := by
    intro o ho h
    rcases (by simpa [ctxLamp] using ho : o = lampObj ∨ o = cubeObj) with rfl | rfl
    · rfl
    · simp [cubeObj, lampObj] at h
  exact ⟨by simp [ctxLamp], by simp [lampObj], hid,
    non_mesh_never_touched ctxLamp lampObj (by simp [ctxLamp]) (by simp [lampObj]) hid⟩

/-- Claim C7: for every selection and every pattern of skipped objects,
each batch operator runs to completion (both are total functions) and
returns the single success signal `{'FINISHED'}`; no other return value
is ever produced. -/
theorem batch_always_finished (ctx : Context) :
    (SetOriginBottomOperator_execute ctx).result = OpResult.FINISHED ∧
    (SetOriginTopOperator_execute ctx).result = OpResult.FINISHED :=
  ⟨rfl, rfl⟩

/-- Claim C8: the computed origin point is a pure, order-independent
function of the vertex multiset: permuting a non-empty vertex list (the
world transform unchanged) leaves the calculator's result unchanged, with
min/max ties resolved by value equality. -/
theorem origin_point_perm_invariant (o1 o2 : Obj) (use_bottom : Bool)
    (hM : o1.matrix_world = o2.matrix_world)
    (hperm : o1.vertices.Perm o2.vertices)
    (h : o1.vertices ≠ []) :
    calculate_origin_point o1 use_bottom = calculate_origin_point o2 use_bottom := by
  have h2 : o2.vertices ≠ [] := by
    intro hn
    apply h
    have hlen := hperm.length_eq
    rw [hn] at hlen
    exact List.length_eq_zero.mp hlen
  have hwp : (worldVerts o1).Perm (worldVerts o2) := by
    rw [worldVerts, worldVerts, hM]
    exact hperm.map _
  have hw1 : ∀ f : Vec3 → ℚ, (worldVerts o1).map f ≠ [] := by
    intro f hn
    rw [List.map_eq_nil_iff, worldVerts, List.map_eq_nil_iff] at hn
    exact h hn
  rw [calc_eq_some o1 use_bottom h, calc_eq_some o2 use_bottom h2,
    pyMin_perm (hw1 Vec3.x) (hwp.map Vec3.x), pyMax_perm (hw1 Vec3.x) (hwp.map Vec3.x),
    pyMin_perm (hw1 Vec3.y) (hwp.map Vec3.y), pyMax_perm (hw1 Vec3.y) (hwp.map Vec3.y),
    pyMin_perm (hw1 Vec3.z) (hwp.map Vec3.z), pyMax_perm (hw1 Vec3.z) (hwp.map Vec3.z)]

/-- Witness for C8: a two-vertex mesh against its reversal. -/
theorem origin_point_perm_invariant_witness :
    segObjA.matrix_world = segObjB.matrix_world ∧
    segObjA.vertices.Perm segObjB.vertices ∧
    segObjA.vertices ≠ [] ∧
    calculate_origin_point segObjA true = calculate_origin_point segObjB true :=
  ⟨rfl, List.Perm.swap _ _ _, by simp [segObjA],
   origin_point_perm_invariant segObjA segObjB true rfl (List.Perm.swap _ _ _)
     (by simp [segObjA])⟩

/-- Claim C9: for the unit cube centered at the world origin (vertices at
±1/2 on each axis, identity world transform), the calculator returns
`(0, 0, -1/2)` in BOTTOM mode and `(0, 0, 1/2)` in TOP mode. -/
theorem unit_cube_scenario :
    calculate_origin_point cubeObj true = some ⟨0, 0, -(1/2)⟩ ∧
    calculate_origin_point cubeObj false = some ⟨0, 0, 1/2⟩ := by
  constructor <;>
    norm_num [calculate_origin_point, worldVerts, cubeObj, matVec, idMatrix,
      pyMin, pyMax, min_def, max_def]

/-- Claim C10: the two operator classes are one procedure parameterized by
the mode flag: on every context, the bottom operator's `execute` equals
the flag-abstracted procedure at `use_bottom = true` and the top
operator's `execute` equals it at `use_bottom = false` — every step
(snapshot, type filter, skip test, cursor move, active-object set,
relocation call, restoration, return value) is identical. -/
theorem operators_same_procedure :
    (∀ ctx, SetOriginBottomOperator_execute ctx = execute_with_flag true ctx) ∧
    (∀ ctx, SetOriginTopOperator_execute ctx = execute_with_flag false ctx) :=
  ⟨fun _ => rfl, fun _ => rfl⟩

end OriginTo
